import Mathlib

/-!
Shallow embedding of `src/faceiraq_multi_crawler2.py` (FaceIraqMultiCrawler).

Instants are modelled as minutes on the proleptic Gregorian calendar
(`Int`, minutes since 0001-01-01 00:00), matching Python `datetime`
comparison and `timedelta` arithmetic at minute granularity (all
instants produced by the program are minute-granular in the model).
Strings are processed as `List Char`; the concrete regular expressions
of `parse_time` are hand-compiled to searchers with Python `re.search`
semantics (leftmost match, greedy quantifiers — the character classes
involved are pairwise disjoint except for the `\d{1,2}` groups, which
get explicit two-then-one backtracking).
-/

namespace Crawler

/-- ASCII fragment of Python's `\s` class / `str.strip` whitespace. -/
def isSpaceChar (c : Char) : Bool :=
  c = ' ' || c = '\t' || c = '\n' || c = '\r' || c = '\x0b' || c = '\x0c'

/-- ASCII decimal digits, Python's `\d` on the inputs in scope. -/
def isDigitChar (c : Char) : Bool :=
  '0' ≤ c && c ≤ '9'

/-- `str.strip()` on a character list. -/
def trimChars (l : List Char) : List Char :=
  ((l.dropWhile isSpaceChar).reverse.dropWhile isSpaceChar).reverse

/-- `str.strip()` / `get_text(strip=True)` on a `String`. -/
def strip (s : String) : String :=
  String.mk (trimChars s.data)

def digitVal (c : Char) : Nat := c.toNat - '0'.toNat

/-- `int()` of a run of ASCII digits (a regex capture group). -/
def digitsToNat (l : List Char) : Nat :=
  l.foldl (fun acc c => acc * 10 + digitVal c) 0

/-- Does `pat` occur as a prefix of `l`? -/
def startsWithChars : List Char → List Char → Bool
  | [], _ => true
  | _ :: _, [] => false
  | p :: ps, c :: cs => p = c && startsWithChars ps cs

/-- Python's `pat in s` substring containment. -/
def containsSub (l pat : List Char) : Bool :=
  match l with
  | [] => startsWithChars pat []
  | _ :: t => startsWithChars pat l || containsSub t pat

/-- "منذ" -/
def patMundhu : List Char := ['م', 'ن', 'ذ']

/-- "ساعا" (the mandatory part of `ساعات?`). -/
def patSaaA : List Char := ['س', 'ا', 'ع', 'ا']

/-- "دقيقة" -/
def patDaqiqa : List Char := ['د', 'ق', 'ي', 'ق', 'ة']

/-- "منذ ساعة واحدة" -/
def patOneHour : List Char :=
  ['م', 'ن', 'ذ', ' ', 'س', 'ا', 'ع', 'ة',
   ' ', 'و', 'ا', 'ح', 'د', 'ة']

/-- "منذ ساعتين" -/
def patTwoHours : List Char :=
  ['م', 'ن', 'ذ', ' ', 'س', 'ا', 'ع', 'ت',
   'ي', 'ن']

/-- "واحدة" -/
def patWahida : List Char := ['و', 'ا', 'ح', 'د', 'ة']

/-- Match `منذ\s+(\d+)\s+LIT...` at the head of `l`, returning the captured
number. The classes `\s`, `\d` and the literals are disjoint, so greedy
maximal munch coincides with the regex backtracking result. -/
def matchAgoAt (lit : List Char) (l : List Char) : Option Nat :=
  if startsWithChars patMundhu l then
    let r0 := l.drop 3
    let sp1 := r0.takeWhile isSpaceChar
    let r1 := r0.dropWhile isSpaceChar
    let ds := r1.takeWhile isDigitChar
    let r2 := r1.dropWhile isDigitChar
    let sp2 := r2.takeWhile isSpaceChar
    let r3 := r2.dropWhile isSpaceChar
    if sp1.isEmpty || ds.isEmpty || sp2.isEmpty then none
    else if startsWithChars lit r3 then some (digitsToNat ds) else none
  else none

/-- `re.search` for the `منذ ... LIT` patterns: leftmost matching position. -/
def searchAgo (lit : List Char) : List Char → Option Nat
  | [] => matchAgoAt lit []
  | l@(_ :: t) =>
    match matchAgoAt lit l with
    | some n => some n
    | none => searchAgo lit t

/-- Take exactly `n` ASCII digits from the front, with value and rest. -/
def exactDigits : Nat → List Char → Option (Nat × List Char)
  | 0, l => some (0, l)
  | _ + 1, [] => none
  | n + 1, c :: cs =>
    if isDigitChar c then
      match exactDigits n cs with
      | some (v, r) => some (digitVal c * 10 ^ n + v, r)
      | none => none
    else none

/-- Tail of pattern 4 (`-(\d{4})` already past the final dash): the year. -/
def p4Year (h mi d mo : Nat) (l : List Char) : Option (Nat × Nat × Nat × Nat × Nat) :=
  match exactDigits 4 l with
  | some (y, _) => some (h, mi, d, mo, y)
  | none => none

/-- `(\d{k})-(\d{4})` for the month group of width `k`. -/
def p4MonthK (h mi d k : Nat) (l : List Char) : Option (Nat × Nat × Nat × Nat × Nat) :=
  match exactDigits k l with
  | some (mo, '-' :: r) => p4Year h mi d mo r
  | _ => none

/-- Greedy `\d{1,2}` month group: try two digits, then one. -/
def p4Month (h mi d : Nat) (l : List Char) : Option (Nat × Nat × Nat × Nat × Nat) :=
  match p4MonthK h mi d 2 l with
  | some r => some r
  | none => p4MonthK h mi d 1 l

/-- `(\d{k})-` for the day group of width `k`, then the month group. -/
def p4DayK (h mi k : Nat) (l : List Char) : Option (Nat × Nat × Nat × Nat × Nat) :=
  match exactDigits k l with
  | some (d, '-' :: r) => p4Month h mi d r
  | _ => none

/-- Greedy `\d{1,2}` day group: try two digits, then one. -/
def p4Day (h mi : Nat) (l : List Char) : Option (Nat × Nat × Nat × Nat × Nat) :=
  match p4DayK h mi 2 l with
  | some r => some r
  | none => p4DayK h mi 1 l

/-- `\s+` between the time and the date, then the date groups. -/
def p4AfterTime (h mi : Nat) (l : List Char) : Option (Nat × Nat × Nat × Nat × Nat) :=
  let sp := l.takeWhile isSpaceChar
  if sp.isEmpty then none else p4Day h mi (l.dropWhile isSpaceChar)

/-- `(\d{k}):(\d{2})` for the hour group of width `k`, then the rest. -/
def p4HourK (k : Nat) (l : List Char) : Option (Nat × Nat × Nat × Nat × Nat) :=
  match exactDigits k l with
  | some (h, ':' :: r) =>
    match exactDigits 2 r with
    | some (mi, r2) => p4AfterTime h mi r2
    | none => none
  | _ => none

/-- Match `(\d{1,2}):(\d{2})\s+(\d{1,2})-(\d{1,2})-(\d{4})` at the head. -/
def matchAbsAt (l : List Char) : Option (Nat × Nat × Nat × Nat × Nat) :=
  match p4HourK 2 l with
  | some r => some r
  | none => p4HourK 1 l

/-- `re.search` for the absolute `HH:MM DD-MM-YYYY` pattern. -/
def searchAbs : List Char → Option (Nat × Nat × Nat × Nat × Nat)
  | [] => matchAbsAt []
  | l@(_ :: t) =>
    match matchAbsAt l with
    | some r => some r
    | none => searchAbs t

/-! ### Proleptic Gregorian calendar (Python `datetime` semantics) -/

def isLeapYear (y : Nat) : Bool :=
  (y % 4 == 0 && y % 100 != 0) || y % 400 == 0

/-- Days in years `1 .. y-1` (`datetime.toordinal` of Jan 1 is this + 1). -/
def daysBeforeYear (y : Nat) : Nat :=
  (y - 1) * 365 + (y - 1) / 4 - (y - 1) / 100 + (y - 1) / 400

def daysInMonth (leap : Bool) (m : Nat) : Nat :=
  match m with
  | 1 => 31 | 2 => if leap then 29 else 28 | 3 => 31 | 4 => 30 | 5 => 31
  | 6 => 30 | 7 => 31 | 8 => 31 | 9 => 30 | 10 => 31 | 11 => 30 | 12 => 31
  | _ => 0

/-- Days in months `1 .. m-1` of a year. -/
def daysBeforeMonth (leap : Bool) : Nat → Nat
  | 0 => 0
  | 1 => 0
  | m + 1 => daysBeforeMonth leap m + daysInMonth leap m

/-- `datetime(y, m, d).toordinal()`. -/
def toOrdinal (y m d : Nat) : Nat :=
  daysBeforeYear y + daysBeforeMonth (isLeapYear y) m + d

/-- `datetime(y, m, d, h, mi)` as an instant (minutes). -/
def mkInstant (y m d h mi : Nat) : Int :=
  Int.ofNat (toOrdinal y m d * 1440 + h * 60 + mi)

/-- Year/day-of-year (0-based) from days since 0001-01-01 (0-based). -/
def yearFromDays (n0 : Nat) : Nat × Nat :=
  let n400 := n0 / 146097
  let r := n0 % 146097
  let n100 := min (r / 36524) 3
  let r1 := r - n100 * 36524
  let n4 := r1 / 1461
  let r2 := r1 % 1461
  let n1 := min (r2 / 365) 3
  let doy := r2 - n1 * 365
  (400 * n400 + 100 * n100 + 4 * n4 + n1 + 1, doy)

/-- Walk the months to split a 0-based day-of-year into (month, day). -/
def monthDayAux : Nat → Bool → Nat → Nat → Nat × Nat
  | 0, _, m, doy => (m, doy + 1)
  | fuel + 1, leap, m, doy =>
    if doy < daysInMonth leap m then (m, doy + 1)
    else monthDayAux fuel leap (m + 1) (doy - daysInMonth leap m)

/-- Ordinal day number back to `(year, month, day)`. -/
def ordToYMD (n : Nat) : Nat × Nat × Nat :=
  let p := yearFromDays (n - 1)
  let md := monthDayAux 11 (isLeapYear p.1) 1 p.2
  (p.1, md.1, md.2)

def pad2 (n : Nat) : String :=
  if n < 10 then "0" ++ toString n else toString n

def pad4 (n : Nat) : String :=
  if n < 10 then "000" ++ toString n
  else if n < 100 then "00" ++ toString n
  else if n < 1000 then "0" ++ toString n
  else toString n

/-- `datetime.isoformat()` of a minute-granular instant
(`YYYY-MM-DDTHH:MM:SS`, seconds always zero in this model). -/
def isoformat (i : Int) : String :=
  let n := i.toNat
  let ymd := ordToYMD (n / 1440)
  let rem := n % 1440
  pad4 ymd.1 ++ "-" ++ pad2 ymd.2.1 ++ "-" ++ pad2 ymd.2.2 ++ "T" ++
    pad2 (rem / 60) ++ ":" ++ pad2 (rem % 60) ++ ":00"

/-! ### `parse_time` (src lines 93-132) -/

/-- `FaceIraqMultiCrawler.parse_time(time_str)`, with the
`datetime.utcnow()` calls made explicit as the `now` argument. -/
def parse_time (now : Int) (time_str : String) : Int :=
  let l := trimChars time_str.data
  match searchAgo patSaaA l with
  | some hours_ago => now - (hours_ago : Int) * 60
  | none =>
    match searchAgo patDaqiqa l with
    | some minutes_ago => now - (minutes_ago : Int)
    | none =>
      if containsSub l patOneHour || containsSub l patTwoHours then
        if containsSub l patWahida then now - 60 else now - 120
      else
        match searchAbs l with
        | some (h, mi, d, mo, y) => mkInstant y mo d h mi - 180
        | none => now

/-- `is_within_time_limit` (src lines 134-136): `publish_date >= cutoff`. -/
def is_within_time_limit (cutoff publish_date : Int) : Bool :=
  decide (cutoff ≤ publish_date)

/-- Does any of the four recognized `parse_time` patterns match? -/
def pattern_matched (time_str : String) : Bool :=
  let l := trimChars time_str.data
  (searchAgo patSaaA l).isSome || (searchAgo patDaqiqa l).isSome ||
    containsSub l patOneHour || containsSub l patTwoHours ||
    (searchAbs l).isSome

/-! ### The per-candidate data (`crawl_section`, src lines 165-217)

A `Card` is one `div.v-card` listing entry as the extraction step sees
it: each field records the outcome of the corresponding
`card.find(...)` — `none` when the element is absent. `imgTitle` is
two-level because the `<img>` element may be present while its `title`
attribute is absent (`img_elem.get('title', 'Unknown')`). -/

structure Card where
  titleElem : Option String
  timeElem : Option String
  imgTitle : Option (Option String)
  linkHref : Option String

/-- One entry of `self.results[section_key]['articles']`
(`publishDate` is the ISO string actually stored, src line 205). -/
structure Article where
  section_name : String
  section_key : String
  title : String
  publishDate : String
  timeText : String
  source : String
  url : String
deriving DecidableEq, Repr

/-- One `self.results[section_key]` record plus the stale counter of
`crawl_section` (`old_articles_count`, src line 154). `seen_titles` is
the Python set, modelled as a list queried by membership. -/
structure SectionState where
  articles : List Article
  seen_titles : List String
  stale : Nat
deriving DecidableEq, Repr

/-- The state `crawl_section` starts from: empty accumulators
(src lines 88-91) and `old_articles_count = 0` (src line 154). -/
def initState : SectionState :=
  { articles := [], seen_titles := [], stale := 0 }

/-- `img_elem.get('title', 'Unknown') if img_elem else 'Unknown'`. -/
def sourceOf (c : Card) : String :=
  match c.imgTitle with
  | some (some t) => t
  | some none => "Unknown"
  | none => "Unknown"

/-- `'https://www.faceiraq.org' + link_elem['href'] if link_elem else ''`. -/
def urlOf (c : Card) : String :=
  match c.linkHref with
  | some href => "https://www.faceiraq.org" ++ href
  | none => ""

/-- `time_elem.get_text(strip=True) if time_elem else ''`. -/
def time_text_of (c : Card) : String :=
  match c.timeElem with
  | some t => strip t
  | none => ""

/-- One iteration of the `for card in cards` body (src lines 165-217).
Returns the updated state and `true` when the stale threshold fired the
early `return` (src line 197). `cutoff` is `self.cutoff_time`, `now`
the `datetime.utcnow()` of the `parse_time` call. -/
def processCard (cutoff now : Int) (sn sk : String) (s : SectionState)
    (c : Card) : SectionState × Bool :=
  match c.titleElem with
  | none => (s, false)
  | some t0 =>
    let title := strip t0
    if title ∈ s.seen_titles then (s, false)
    else
      let time_text := time_text_of c
      let source := sourceOf c
      let article_url := urlOf c
      let publish_date := parse_time now time_text
      if !is_within_time_limit cutoff publish_date then
        let s' := { s with stale := s.stale + 1 }
        if 5 ≤ s'.stale then (s', true) else (s', false)
      else
        let article : Article :=
          { section_name := sn, section_key := sk, title := title,
            publishDate := isoformat publish_date ++ "Z",
            timeText := time_text, source := source, url := article_url }
        ({ s with articles := s.articles ++ [article],
                  seen_titles := title :: s.seen_titles }, false)

/-- The whole `for card in cards` loop of one rendering round; the
early `return` aborts the rest of the batch. -/
def processRound (cutoff now : Int) (sn sk : String) (cards : List Card)
    (s : SectionState) : SectionState × Bool :=
  match cards with
  | [] => (s, false)
  | c :: cs =>
    let r := processCard cutoff now sn sk s c
    if r.2 then r else processRound cutoff now sn sk cs r.1

/-- The `while scroll_count < max_scrolls` loop over successive page
snapshots; the early `return` abandons all remaining rounds. -/
def crawlRounds (cutoff now : Int) (sn sk : String)
    (rounds : List (List Card)) (s : SectionState) : SectionState :=
  match rounds with
  | [] => s
  | r :: rs =>
    let p := processRound cutoff now sn sk r s
    if p.2 then p.1 else crawlRounds cutoff now sn sk rs p.1

/-- `crawl_section` (src lines 138-226): at most `max_scrolls = 10`
rounds, round `i` seeing the page snapshot `pages i` that the browser
yields at that iteration; fresh accumulators per section. -/
def crawl_section (cutoff now : Int) (sn sk : String)
    (pages : Nat → List Card) : SectionState :=
  crawlRounds cutoff now sn sk ((List.range 10).map pages) initState

/-! ### The sort of `save_results` (src lines 234-235)

`articles.sort(key=lambda x: x.get('publishDate', ''), reverse=True)`:
a stable descending sort keyed on the ISO string, compared by code
points as Python compares `str`. Python's stable sort is extensionally
the stable insertion sort below. -/

/-- Python `str` `<` (code-point lexicographic). -/
def strLt : List Char → List Char → Bool
  | [], [] => false
  | [], _ :: _ => true
  | _ :: _, [] => false
  | a :: as, b :: bs => if a < b then true else if b < a then false else strLt as bs

/-- The sort key `x.get('publishDate', '')`. -/
def sortKey (a : Article) : List Char :=
  a.publishDate.data

/-- Insert into a descending list. The inserted element is the one that
originally precedes the already-sorted tail, so for stability it goes
before the first element whose key is `≤` its own. -/
def insertDesc (x : Article) : List Article → List Article
  | [] => [x]
  | y :: ys => if !strLt (sortKey x) (sortKey y) then x :: y :: ys
               else y :: insertDesc x ys

/-- The sorted article list `save_results` emits. -/
def sorted_snapshot : List Article → List Article
  | [] => []
  | x :: xs => insertDesc x (sorted_snapshot xs)

/-! ### Spec-side predicates -/

/-- The seen-title set is exactly the set of accepted titles. -/
def seenInv (s : SectionState) : Prop :=
  ∀ t, t ∈ s.seen_titles ↔ t ∈ s.articles.map Article.title

/-- Spec-side condition under which a candidate counts toward the stale
streak: a titled, non-duplicate candidate whose parsed instant is
strictly before the cutoff. -/
def staleIncr (cutoff now : Int) (s : SectionState) (c : Card) : Bool :=
  match c.titleElem with
  | none => false
  | some t0 =>
    if strip t0 ∈ s.seen_titles then false
    else decide (parse_time now (time_text_of c) < cutoff)

/-- The Article record built for an accepted candidate
(src lines 201-209). -/
def acceptedArticle (now : Int) (sn sk : String) (t0 : String) (c : Card) : Article :=
  { section_name := sn, section_key := sk, title := strip t0,
    publishDate := isoformat (parse_time now (time_text_of c)) ++ "Z",
    timeText := time_text_of c, source := sourceOf c, url := urlOf c }

/-! ### Helper lemmas about one candidate step -/

lemma processCard_none (cutoff now : Int) (sn sk : String) (s : SectionState)
    (c : Card) (h : c.titleElem = none) :
    processCard cutoff now sn sk s c = (s, false) := by
  simp [processCard, h]

lemma processCard_dup (cutoff now : Int) (sn sk : String) (s : SectionState)
    (c : Card) (t0 : String) (h : c.titleElem = some t0)
    (hd : strip t0 ∈ s.seen_titles) :
    processCard cutoff now sn sk s c = (s, false) := by
  simp [processCard, h, hd]

lemma processCard_stale_step (cutoff now : Int) (sn sk : String)
    (s : SectionState) (c : Card) (t0 : String) (h : c.titleElem = some t0)
    (hd : strip t0 ∉ s.seen_titles)
    (hw : is_within_time_limit cutoff (parse_time now (time_text_of c)) = false) :
    processCard cutoff now sn sk s c =
      ({ s with stale := s.stale + 1 }, decide (5 ≤ s.stale + 1)) := by
  simp only [processCard, h, if_neg hd, hw]
  by_cases h5 : 5 ≤ s.stale + 1 <;> simp [h5]

lemma processCard_accept (cutoff now : Int) (sn sk : String)
    (s : SectionState) (c : Card) (t0 : String) (h : c.titleElem = some t0)
    (hd : strip t0 ∉ s.seen_titles)
    (hw : is_within_time_limit cutoff (parse_time now (time_text_of c)) = true) :
    processCard cutoff now sn sk s c =
      ({ s with articles := s.articles ++ [acceptedArticle now sn sk t0 c],
                seen_titles := strip t0 :: s.seen_titles }, false) := by
  simp [processCard, h, if_neg hd, hw, acceptedArticle]

lemma processCard_stale_eq (cutoff now : Int) (sn sk : String)
    (s : SectionState) (c : Card) :
    (processCard cutoff now sn sk s c).1.stale =
      if staleIncr cutoff now s c then s.stale + 1 else s.stale := by
  cases h : c.titleElem with
  | none => simp [processCard_none cutoff now sn sk s c h, staleIncr, h]
  | some t0 =>
    by_cases hd : strip t0 ∈ s.seen_titles
    · simp [processCard_dup cutoff now sn sk s c t0 h hd, staleIncr, h, hd]
    · by_cases hw : is_within_time_limit cutoff (parse_time now (time_text_of c)) = true
      · have hlt : ¬ parse_time now (time_text_of c) < cutoff := by
          simpa [is_within_time_limit] using hw
        simp [processCard_accept cutoff now sn sk s c t0 h hd hw, staleIncr, h, hd, hlt]
      · have hw' : is_within_time_limit cutoff (parse_time now (time_text_of c)) = false := by
          simpa using hw
        have hlt : parse_time now (time_text_of c) < cutoff := by
          simpa [is_within_time_limit] using hw'
        simp [processCard_stale_step cutoff now sn sk s c t0 h hd hw', staleIncr, h, hd, hlt]

lemma processCard_done_iff (cutoff now : Int) (sn sk : String)
    (s : SectionState) (c : Card) :
    (processCard cutoff now sn sk s c).2 = true ↔
      (processCard cutoff now sn sk s c).1.stale = s.stale + 1 ∧
        5 ≤ (processCard cutoff now sn sk s c).1.stale := by
  cases h : c.titleElem with
  | none => simp [processCard_none cutoff now sn sk s c h]
  | some t0 =>
    by_cases hd : strip t0 ∈ s.seen_titles
    · simp [processCard_dup cutoff now sn sk s c t0 h hd]
    · by_cases hw : is_within_time_limit cutoff (parse_time now (time_text_of c)) = true
      · simp [processCard_accept cutoff now sn sk s c t0 h hd hw]
      · have hw' : is_within_time_limit cutoff (parse_time now (time_text_of c)) = false := by
          simpa using hw
        simp [processCard_stale_step cutoff now sn sk s c t0 h hd hw']

lemma processCard_stale_mono (cutoff now : Int) (sn sk : String)
    (s : SectionState) (c : Card) :
    s.stale ≤ (processCard cutoff now sn sk s c).1.stale := by
  rw [processCard_stale_eq]
  split <;> omega

lemma processRound_stale_mono (cutoff now : Int) (sn sk : String) :
    ∀ (cards : List Card) (s : SectionState),
      s.stale ≤ (processRound cutoff now sn sk cards s).1.stale
  | [], s => le_refl _
  | c :: cs, s => by
    simp only [processRound]
    split
    · exact processCard_stale_mono cutoff now sn sk s c
    · exact le_trans (processCard_stale_mono cutoff now sn sk s c)
        (processRound_stale_mono cutoff now sn sk cs _)

lemma crawlRounds_stale_mono (cutoff now : Int) (sn sk : String) :
    ∀ (rounds : List (List Card)) (s : SectionState),
      s.stale ≤ (crawlRounds cutoff now sn sk rounds s).stale
  | [], s => le_refl _
  | r :: rs, s => by
    simp only [crawlRounds]
    split
    · exact processRound_stale_mono cutoff now sn sk r s
    · exact le_trans (processRound_stale_mono cutoff now sn sk r s)
        (crawlRounds_stale_mono cutoff now sn sk rs _)

/-! ### Preservation of the seen-titles/accepted-titles invariant -/

lemma seenInv_initState : seenInv initState := by
  intro t
  simp [initState]

lemma processCard_seenInv (cutoff now : Int) (sn sk : String)
    (s : SectionState) (c : Card) (hs : seenInv s) :
    seenInv (processCard cutoff now sn sk s c).1 := by
  cases h : c.titleElem with
  | none => rw [processCard_none cutoff now sn sk s c h]; exact hs
  | some t0 =>
    by_cases hd : strip t0 ∈ s.seen_titles
    · rw [processCard_dup cutoff now sn sk s c t0 h hd]; exact hs
    · by_cases hw : is_within_time_limit cutoff (parse_time now (time_text_of c)) = true
      · rw [processCard_accept cutoff now sn sk s c t0 h hd hw]
        intro t
        simp only [List.mem_cons, List.map_append, List.mem_append]
        constructor
        · rintro (rfl | ht)
          · right; simp [acceptedArticle]
          · left; exact (hs t).mp ht
        · rintro (ht | ht)
          · right; exact (hs t).mpr ht
          · left
            simpa [acceptedArticle] using ht
      · have hw' : is_within_time_limit cutoff (parse_time now (time_text_of c)) = false := by
          simpa using hw
        rw [processCard_stale_step cutoff now sn sk s c t0 h hd hw']
        exact hs

lemma processCard_nodup (cutoff now : Int) (sn sk : String)
    (s : SectionState) (c : Card) (hs : seenInv s)
    (hn : (s.articles.map Article.title).Nodup) :
    ((processCard cutoff now sn sk s c).1.articles.map Article.title).Nodup := by
  cases h : c.titleElem with
  | none => rw [processCard_none cutoff now sn sk s c h]; exact hn
  | some t0 =>
    by_cases hd : strip t0 ∈ s.seen_titles
    · rw [processCard_dup cutoff now sn sk s c t0 h hd]; exact hn
    · by_cases hw : is_within_time_limit cutoff (parse_time now (time_text_of c)) = true
      · rw [processCard_accept cutoff now sn sk s c t0 h hd hw]
        have hnotin : strip t0 ∉ s.articles.map Article.title :=
          fun hmem => hd ((hs (strip t0)).mpr hmem)
        simp only [List.map_append]
        rw [List.nodup_append]
        refine ⟨hn, by simp [acceptedArticle], ?_⟩
        intro a ha hb
        have hb' : a = strip t0 := by simpa [acceptedArticle] using hb
        exact hnotin (hb' ▸ ha)
      · have hw' : is_within_time_limit cutoff (parse_time now (time_text_of c)) = false := by
          simpa using hw
        rw [processCard_stale_step cutoff now sn sk s c t0 h hd hw']
        exact hn

lemma processRound_seenInv_nodup (cutoff now : Int) (sn sk : String) :
    ∀ (cards : List Card) (s : SectionState),
      seenInv s → (s.articles.map Article.title).Nodup →
      seenInv (processRound cutoff now sn sk cards s).1 ∧
        ((processRound cutoff now sn sk cards s).1.articles.map Article.title).Nodup
  | [], s, hs, hn => ⟨hs, hn⟩
  | c :: cs, s, hs, hn => by
    simp only [processRound]
    split
    · exact ⟨processCard_seenInv cutoff now sn sk s c hs,
        processCard_nodup cutoff now sn sk s c hs hn⟩
    · exact processRound_seenInv_nodup cutoff now sn sk cs _
        (processCard_seenInv cutoff now sn sk s c hs)
        (processCard_nodup cutoff now sn sk s c hs hn)

lemma crawlRounds_seenInv_nodup (cutoff now : Int) (sn sk : String) :
    ∀ (rounds : List (List Card)) (s : SectionState),
      seenInv s → (s.articles.map Article.title).Nodup →
      seenInv (crawlRounds cutoff now sn sk rounds s) ∧
        ((crawlRounds cutoff now sn sk rounds s).articles.map Article.title).Nodup
  | [], _, hs, hn => ⟨hs, hn⟩
  | r :: rs, s, hs, hn => by
    simp only [crawlRounds]
    split
    · exact processRound_seenInv_nodup cutoff now sn sk r s hs hn
    · have h1 := processRound_seenInv_nodup cutoff now sn sk r s hs hn
      exact crawlRounds_seenInv_nodup cutoff now sn sk rs _ h1.1 h1.2

/-! ### The string order underlying the sort -/

lemma strLt_irrefl : ∀ l : List Char, strLt l l = false
  | [] => rfl
  | c :: cs => by simp [strLt, strLt_irrefl cs]

lemma strLt_asymm : ∀ a b : List Char, strLt a b = true → strLt b a = false
  | [], [] => by intro h; simp [strLt] at h
  | [], _ :: _ => fun _ => rfl
  | _ :: _, [] => by intro h; simp [strLt] at h
  | a :: as, b :: bs => by
    intro h
    simp only [strLt] at h ⊢
    by_cases h1 : a < b
    · have h2 : ¬ b < a := lt_asymm h1
      simp [h1, h2]
    · by_cases h2 : b < a
      · simp [h1, h2] at h
      · simp only [h1, h2, if_false] at h ⊢
        exact strLt_asymm as bs h

lemma strLt_neg_trans : ∀ a b c : List Char,
    strLt a b = false → strLt b c = false → strLt a c = false
  | [], b, c => by
    intro h1 h2
    cases b with
    | nil => exact h2
    | cons y ys => simp [strLt] at h1
  | _ :: _, _, [] => fun _ _ => rfl
  | x :: xs, b, z :: zs => by
    intro h1 h2
    cases b with
    | nil => simp [strLt] at h2
    | cons y ys =>
      simp only [strLt] at h1 h2 ⊢
      by_cases hxy : x < y
      · simp [hxy] at h1
      · by_cases hyz : y < z
        · simp [hyz] at h2
        · have hxz : ¬ x < z := fun hlt =>
            absurd (lt_of_lt_of_le (lt_of_lt_of_le hlt (le_of_not_lt hyz))
              (le_of_not_lt hxy)) (lt_irrefl x)
          by_cases hzx : z < x
          · simp [hxz, hzx]
          · have hxz' : x = z := le_antisymm (le_of_not_lt hzx) (le_of_not_lt hxz)
            have hyx : y = x :=
              le_antisymm (le_of_not_lt hxy) (hxz' ▸ le_of_not_lt hyz)
            have hyx' : ¬ y < x := hyx ▸ lt_irrefl y
            have hzy : ¬ z < y := (hyx.trans hxz').symm ▸ lt_irrefl z
            rw [if_neg hxy, if_neg hyx'] at h1
            rw [if_neg hyz, if_neg hzy] at h2
            rw [if_neg hxz, if_neg hzx]
            exact strLt_neg_trans xs ys zs h1 h2

/-- The order the sorted output is pairwise arranged by: the earlier
article's key is not smaller than the later one's (descending). -/
def keyGe (a b : Article) : Prop :=
  strLt (sortKey a) (sortKey b) = false

lemma insertDesc_perm (x : Article) :
    ∀ l, List.Perm (insertDesc x l) (x :: l)
  | [] => List.Perm.refl _
  | y :: ys => by
    simp only [insertDesc]
    split
    · exact List.Perm.refl _
    · exact List.Perm.trans ((insertDesc_perm x ys).cons y) (List.Perm.swap x y ys)

lemma pairwise_insertDesc (x : Article) :
    ∀ l, List.Pairwise keyGe l → List.Pairwise keyGe (insertDesc x l)
  | [], _ => by simp [insertDesc, List.pairwise_singleton]
  | y :: ys, h => by
    rcases List.pairwise_cons.mp h with ⟨hy, hys⟩
    simp only [insertDesc]
    by_cases hc : strLt (sortKey x) (sortKey y) = false
    · simp only [hc, Bool.not_false, if_true]
      refine List.pairwise_cons.mpr ⟨?_, h⟩
      intro z hz
      rcases List.mem_cons.mp hz with rfl | hz'
      · exact hc
      · exact strLt_neg_trans _ _ _ hc (hy z hz')
    · have hc' : strLt (sortKey x) (sortKey y) = true := by
        simpa using hc
      simp only [hc', Bool.not_true, if_false]
      refine List.pairwise_cons.mpr ⟨?_, pairwise_insertDesc x ys hys⟩
      intro z hz
      rcases List.mem_cons.mp ((insertDesc_perm x ys).mem_iff.mp hz) with rfl | hz'
      · exact strLt_asymm _ _ hc'
      · exact hy z hz'

lemma sorted_snapshot_perm : ∀ l, List.Perm (sorted_snapshot l) l
  | [] => List.Perm.refl _
  | x :: xs =>
    List.Perm.trans (insertDesc_perm x (sorted_snapshot xs))
      ((sorted_snapshot_perm xs).cons x)

lemma sorted_snapshot_pairwise : ∀ l, (sorted_snapshot l).Pairwise keyGe
  | [] => List.Pairwise.nil
  | x :: xs => pairwise_insertDesc x _ (sorted_snapshot_pairwise xs)

lemma filter_insertDesc (x : Article) (k : List Char) : ∀ l,
    (insertDesc x l).filter (fun a => decide (sortKey a = k)) =
      if sortKey x = k then x :: l.filter (fun a => decide (sortKey a = k))
      else l.filter (fun a => decide (sortKey a = k))
  | [] => by
    by_cases h : sortKey x = k <;> simp [insertDesc, h]
  | y :: ys => by
    simp only [insertDesc]
    cases hc : strLt (sortKey x) (sortKey y) with
    | false =>
      simp only [hc, Bool.not_false, if_true]
      by_cases hxk : sortKey x = k <;> simp [List.filter_cons, hxk]
    | true =>
      simp only [hc, Bool.not_true, if_false]
      by_cases hyk : sortKey y = k
      · by_cases hxk : sortKey x = k
        · exfalso
          have hkk : sortKey x = sortKey y := hxk.trans hyk.symm
          rw [hkk, strLt_irrefl] at hc
          exact Bool.false_ne_true hc
        · simp [List.filter_cons, hyk, hxk, filter_insertDesc x k ys]
      · by_cases hxk : sortKey x = k <;>
          simp [List.filter_cons, hyk, hxk, filter_insertDesc x k ys]

lemma filter_sorted_snapshot (k : List Char) : ∀ l,
    (sorted_snapshot l).filter (fun a => decide (sortKey a = k)) =
      l.filter (fun a => decide (sortKey a = k))
  | [] => rfl
  | x :: xs => by
    simp only [sorted_snapshot]
    rw [filter_insertDesc x k (sorted_snapshot xs)]
    by_cases hxk : sortKey x = k <;>
      simp [List.filter_cons, hxk, filter_sorted_snapshot k xs]

/-! ### Remaining helpers -/

lemma opt_eq_none {α : Type} {o : Option α} (h : o.isSome = false) : o = none := by
  cases o with
  | none => rfl
  | some _ => simp at h

/-- The fall-through branch of `parse_time` (src line 132). -/
lemma parse_time_unmatched (now : Int) (ts : String)
    (h : pattern_matched ts = false) : parse_time now ts = now := by
  rw [pattern_matched] at h
  simp only [Bool.or_eq_false_iff] at h
  obtain ⟨⟨⟨⟨h1, h2⟩, h3⟩, h4⟩, h5⟩ := h
  simp only [parse_time, opt_eq_none h1, opt_eq_none h2, opt_eq_none h5, h3, h4,
    Bool.or_self, Bool.false_eq_true, if_false]

lemma processRound_stop (cutoff now : Int) (sn sk : String)
    (s s' : SectionState) (c : Card) (cs : List Card)
    (h : processCard cutoff now sn sk s c = (s', true)) :
    processRound cutoff now sn sk (c :: cs) s = (s', true) := by
  simp [processRound, h]

lemma crawlRounds_stop (cutoff now : Int) (sn sk : String)
    (s s' : SectionState) (r : List Card) (rs : List (List Card))
    (h : processRound cutoff now sn sk r s = (s', true)) :
    crawlRounds cutoff now sn sk (r :: rs) s = s' := by
  simp [crawlRounds, h]

/-- Only the first `max_scrolls = 10` page snapshots can influence the
crawl of a section. -/
lemma crawl_section_pages_congr (cutoff now : Int) (sn sk : String)
    (pages pages' : Nat → List Card)
    (h : ∀ i, i < 10 → pages i = pages' i) :
    crawl_section cutoff now sn sk pages =
      crawl_section cutoff now sn sk pages' := by
  unfold crawl_section
  have : (List.range 10).map pages = (List.range 10).map pages' := by
    apply List.map_congr_left
    intro i hi
    exact h i (List.mem_range.mp hi)
  rw [this]

/-! ### The fallible parser (CPython error paths made explicit)

`parse_time` above collapses the source's exception paths into total
arithmetic. The definitions below model them faithfully: `datetime`'s
constructor validation (src line 127 raises `ValueError` for
out-of-range components), `timedelta`'s normalization bound
(`OverflowError` for huge relative offsets), and the range check of
datetime-minus-timedelta (`OverflowError` outside years 1..9999).
`none` stands for a raised exception, which the per-candidate
`try/except` of `crawl_section` (src lines 166, 216-217) turns into a
skip. -/

/-- `datetime(y, mo, d, h, mi)` with CPython's range validation:
`ValueError` (`none`) unless 1 ≤ y ≤ 9999, 1 ≤ mo ≤ 12, 1 ≤ d ≤ days in
the month, h ≤ 23, mi ≤ 59. -/
def mkDatetimeE (y mo d h mi : Nat) : Option Int :=
  if 1 ≤ y ∧ y ≤ 9999 ∧ 1 ≤ mo ∧ mo ≤ 12 ∧ 1 ≤ d ∧
      d ≤ daysInMonth (isLeapYear y) mo ∧ h ≤ 23 ∧ mi ≤ 59 then
    some (mkInstant y mo d h mi)
  else none

/-- Result range check of `datetime ± timedelta`: `OverflowError`
(`none`) outside `datetime.min .. datetime.max`. -/
def dtCheck (r : Int) : Option Int :=
  if mkInstant 1 1 1 0 0 ≤ r ∧ r ≤ mkInstant 9999 12 31 23 59 then some r
  else none

/-- `timedelta(hours=h)` normalizes to days; `OverflowError` when the
day count exceeds 999999999. -/
def timedeltaHoursOk (h : Nat) : Bool :=
  decide (h / 24 ≤ 999999999)

/-- `timedelta(minutes=m)`, same normalization bound. -/
def timedeltaMinutesOk (m : Nat) : Bool :=
  decide (m / 1440 ≤ 999999999)

/-- `parse_time` with the exception paths explicit: `none` where the
source raises (`ValueError` from `datetime(...)` at src line 127,
`OverflowError` from `timedelta` or from the subtractions), `some` the
returned instant otherwise. -/
def parse_timeE (now : Int) (time_str : String) : Option Int :=
  let l := trimChars time_str.data
  match searchAgo patSaaA l with
  | some hours_ago =>
    if timedeltaHoursOk hours_ago then dtCheck (now - (hours_ago : Int) * 60)
    else none
  | none =>
    match searchAgo patDaqiqa l with
    | some minutes_ago =>
      if timedeltaMinutesOk minutes_ago then dtCheck (now - (minutes_ago : Int))
      else none
    | none =>
      if containsSub l patOneHour || containsSub l patTwoHours then
        dtCheck (now - (if containsSub l patWahida then 60 else 120))
      else
        match searchAbs l with
        | some (h, mi, d, mo, y) =>
          match mkDatetimeE y mo d h mi with
          | some iraq_time => dtCheck (iraq_time - 180)
          | none => none
        | none => some now

/-- `processCard` with the fallible parser and the per-candidate
`try/except` of `crawl_section`: an exception raised while handling the
card is caught and the card skipped with no state change. -/
def processCardE (cutoff now : Int) (sn sk : String) (s : SectionState)
    (c : Card) : SectionState × Bool :=
  match c.titleElem with
  | none => (s, false)
  | some t0 =>
    let title := strip t0
    if title ∈ s.seen_titles then (s, false)
    else
      match parse_timeE now (time_text_of c) with
      | none => (s, false)
      | some publish_date =>
        if !is_within_time_limit cutoff publish_date then
          let s' := { s with stale := s.stale + 1 }
          if 5 ≤ s'.stale then (s', true) else (s', false)
        else
          let article : Article :=
            { section_name := sn, section_key := sk, title := title,
              publishDate := isoformat publish_date ++ "Z",
              timeText := time_text_of c, source := sourceOf c,
              url := urlOf c }
          ({ s with articles := s.articles ++ [article],
                    seen_titles := title :: s.seen_titles }, false)

/-- The fall-through branch of the fallible parser: text matching no
recognized pattern cannot raise and yields `now`. -/
lemma parse_timeE_unmatched (now : Int) (ts : String)
    (h : pattern_matched ts = false) : parse_timeE now ts = some now := by
  rw [pattern_matched] at h
  simp only [Bool.or_eq_false_iff] at h
  obtain ⟨⟨⟨⟨h1, h2⟩, h3⟩, h4⟩, h5⟩ := h
  simp only [parse_timeE, opt_eq_none h1, opt_eq_none h2, opt_eq_none h5, h3, h4,
    Bool.or_self, Bool.false_eq_true, if_false]

/-! ### Concrete fixtures for witnesses and counterexamples -/

/-- 2024-01-01T12:00:00Z, the reference `now` of the parsing table. -/
def now0 : Int := mkInstant 2024 1 1 12 0

/-- A listing card whose timestamp is three hours old. -/
def cardOld : Card :=
  { titleElem := some "old", timeElem := some "منذ 3 ساعات",
    imgTitle := none, linkHref := none }

/-- A listing card with an unparsable timestamp and a relative link. -/
def cardGarbage : Card :=
  { titleElem := some " t1 ", timeElem := some "garbage text",
    imgTitle := some (some "Src"), linkHref := some "/a" }

/-- A listing card with no title element at all. -/
def cardNoTitle : Card :=
  { titleElem := none, timeElem := some "منذ ساعتين",
    imgTitle := none, linkHref := none }

/-- A listing card whose extracted href is already an absolute URL. -/
def cardAbs : Card :=
  { titleElem := some "abs", timeElem := some "zz",
    imgTitle := none, linkHref := some "https://www.example.com/a" }

/-- A listing card whose timestamp text matches the absolute pattern
with an out-of-range hour, making `datetime(...)` raise. -/
def cardBadTime : Card :=
  { titleElem := some "bad", timeElem := some "25:30 05-01-2024",
    imgTitle := none, linkHref := none }

/-- A card whose trimmed title collides with `art1`. -/
def cardDup : Card :=
  { titleElem := some "t1", timeElem := some "garbage text",
    imgTitle := none, linkHref := none }

/-- An already-accepted article titled `t1`. -/
def art1 : Article :=
  ⟨"s", "k", "t1", "2024-01-01T12:00:00Z", "x", "Src", ""⟩

/-- A state that has accepted exactly `art1`. -/
def state1 : SectionState :=
  { articles := [art1], seen_titles := ["t1"], stale := 0 }

def artA : Article := ⟨"s", "k", "A", "2024-01-01T12:00:00Z", "", "", ""⟩
def artB : Article := ⟨"s", "k", "B", "2024-01-01T12:00:00Z", "", "", ""⟩
def artC : Article := ⟨"s", "k", "C", "2024-01-01T11:00:00Z", "", "", ""⟩

/-! ### Claims -/

/-- Claim C1: once the stale counter reaches the threshold 5 the section
crawl terminates immediately — the candidate step reports done exactly
when it just incremented the counter to at least 5, a done step aborts
the remaining candidates of the round, a done round aborts all remaining
rounds — and the section loop consumes at most 10 pagination rounds
(only the first 10 page snapshots can influence the result). -/
theorem C1_stale_threshold_and_round_bound :
    (∀ (cutoff now : Int) (sn sk : String) (s : SectionState) (c : Card),
        (processCard cutoff now sn sk s c).2 = true ↔
          (processCard cutoff now sn sk s c).1.stale = s.stale + 1 ∧
            5 ≤ (processCard cutoff now sn sk s c).1.stale) ∧
    (∀ (cutoff now : Int) (sn sk : String) (s s' : SectionState)
        (c : Card) (cs : List Card),
        processCard cutoff now sn sk s c = (s', true) →
        processRound cutoff now sn sk (c :: cs) s = (s', true)) ∧
    (∀ (cutoff now : Int) (sn sk : String) (s s' : SectionState)
        (r : List Card) (rs : List (List Card)),
        processRound cutoff now sn sk r s = (s', true) →
        crawlRounds cutoff now sn sk (r :: rs) s = s') ∧
    (∀ (cutoff now : Int) (sn sk : String) (pages pages' : Nat → List Card),
        (∀ i, i < 10 → pages i = pages' i) →
        crawl_section cutoff now sn sk pages =
          crawl_section cutoff now sn sk pages') := by
  exact ⟨processCard_done_iff, processRound_stop, crawlRounds_stop,
    crawl_section_pages_congr⟩

/-- Witness for C1: a fifth consecutive stale candidate fires the early
return, aborting the rest of the batch and all later rounds, and two
page feeds agreeing on their first 10 snapshots crawl identically. -/
theorem C1_stale_threshold_and_round_bound_witness :
    processRound now0 now0 "s" "k" [cardOld, cardGarbage] ⟨[], [], 4⟩ =
        (⟨[], [], 5⟩, true) ∧
    crawlRounds now0 now0 "s" "k" [[cardOld], [cardGarbage]] ⟨[], [], 4⟩ =
        ⟨[], [], 5⟩ ∧
    crawl_section now0 now0 "s" "k" (fun _ => []) =
      crawl_section now0 now0 "s" "k"
        (fun i => if 10 ≤ i then [cardOld] else []) := by
  refine ⟨?_, ?_, ?_⟩
  · exact C1_stale_threshold_and_round_bound.2.1 now0 now0 "s" "k"
      ⟨[], [], 4⟩ ⟨[], [], 5⟩ cardOld [cardGarbage] (by decide)
  · exact C1_stale_threshold_and_round_bound.2.2.1 now0 now0 "s" "k"
      ⟨[], [], 4⟩ ⟨[], [], 5⟩ [cardOld] [[cardGarbage]] (by decide)
  · exact C1_stale_threshold_and_round_bound.2.2.2 now0 now0 "s" "k" _ _
      (fun i hi => by simp [Nat.not_le.mpr hi])

/-- Claim C2: with `now` fixed at 2024-01-01T12:00:00Z the time parser
maps each literal of the spec's parsing table to the stated instant
(relative hours, relative minutes, the idiomatic one- and two-hour
phrases, the absolute UTC+3 form, and the fallback to `now`). -/
theorem C2_time_parsing_table :
    parse_time now0 "منذ 3 ساعات" = mkInstant 2024 1 1 9 0 ∧
    parse_time now0 "منذ 45 دقيقة" = mkInstant 2024 1 1 11 15 ∧
    parse_time now0 "منذ ساعة واحدة" = mkInstant 2024 1 1 11 0 ∧
    parse_time now0 "منذ ساعتين" = mkInstant 2024 1 1 10 0 ∧
    parse_time now0 "14:30 05-01-2024" = mkInstant 2024 1 5 11 30 ∧
    parse_time now0 "garbage text" = now0 := by
  decide

/-- Claim C3: the stale counter starts a section at zero, a candidate
step increments it by exactly one precisely when the candidate is
titled, non-duplicate and parses strictly before the cutoff (and leaves
it unchanged otherwise — in particular an in-window candidate never
resets it), and across whole rounds it never decreases. -/
theorem C3_stale_counter_semantics :
    initState.stale = 0 ∧
    (∀ (cutoff now : Int) (sn sk : String) (s : SectionState) (c : Card),
        (processCard cutoff now sn sk s c).1.stale =
          if staleIncr cutoff now s c then s.stale + 1 else s.stale) ∧
    (∀ (cutoff now : Int) (sn sk : String) (rounds : List (List Card))
        (s : SectionState),
        s.stale ≤ (crawlRounds cutoff now sn sk rounds s).stale) := by
  exact ⟨rfl, processCard_stale_eq, crawlRounds_stale_mono⟩

/-- Claim C4: a candidate whose trimmed title equals the title of an
already-accepted article of the section is skipped with the state
untouched, and the accepted titles of any section crawl are pairwise
distinct. -/
theorem C4_title_dedup :
    (∀ (cutoff now : Int) (sn sk : String) (s : SectionState) (c : Card)
        (t0 : String), seenInv s → c.titleElem = some t0 →
        strip t0 ∈ s.articles.map Article.title →
        processCard cutoff now sn sk s c = (s, false)) ∧
    (∀ (cutoff now : Int) (sn sk : String) (pages : Nat → List Card),
        ((crawl_section cutoff now sn sk pages).articles.map
          Article.title).Nodup) := by
  constructor
  · intro cutoff now sn sk s c t0 hs ht hmem
    exact processCard_dup cutoff now sn sk s c t0 ht ((hs _).mpr hmem)
  · intro cutoff now sn sk pages
    exact (crawlRounds_seenInv_nodup cutoff now sn sk _ initState
      seenInv_initState (by simp [initState])).2

/-- Witness for C4: feeding the title `t1` to a state that has already
accepted an article titled `t1` accepts nothing and changes nothing. -/
theorem C4_title_dedup_witness :
    processCard now0 now0 "s" "k" state1 cardDup = (state1, false) := by
  refine C4_title_dedup.1 now0 now0 "s" "k" state1 cardDup "t1" ?_ rfl (by decide)
  intro t
  simp [state1, art1]

/-- Claim C5: the window test is inclusive at the lower bound — the
membership test is exactly `cutoff ≤ publish_instant`, an instant equal
to the cutoff passes it, and a titled non-duplicate candidate whose
parsed instant equals the cutoff is accepted rather than counted
stale. -/
theorem C5_window_boundary_inclusive :
    (∀ cutoff : Int, is_within_time_limit cutoff cutoff = true) ∧
    (∀ cutoff pd : Int, is_within_time_limit cutoff pd = true ↔ cutoff ≤ pd) ∧
    (∀ (cutoff now : Int) (sn sk : String) (s : SectionState) (c : Card)
        (t0 : String), c.titleElem = some t0 →
        strip t0 ∉ s.seen_titles →
        parse_time now (time_text_of c) = cutoff →
        (processCard cutoff now sn sk s c).1.stale = s.stale ∧
          (processCard cutoff now sn sk s c).1.articles =
            s.articles ++ [acceptedArticle now sn sk t0 c]) := by
  refine ⟨fun cutoff => by simp [is_within_time_limit],
    fun cutoff pd => by simp [is_within_time_limit], ?_⟩
  intro cutoff now sn sk s c t0 ht hd hpd
  have hw : is_within_time_limit cutoff (parse_time now (time_text_of c)) = true := by
    simp [is_within_time_limit, hpd]
  rw [processCard_accept cutoff now sn sk s c t0 ht hd hw]
  exact ⟨rfl, rfl⟩

/-- Witness for C5: with the cutoff equal to `now`, a candidate whose
unparsable timestamp parses to exactly the cutoff is accepted and the
stale counter stays at zero. -/
theorem C5_window_boundary_inclusive_witness :
    (processCard now0 now0 "s" "k" initState cardGarbage).1.stale =
        initState.stale ∧
      (processCard now0 now0 "s" "k" initState cardGarbage).1.articles =
        initState.articles ++ [acceptedArticle now0 "s" "k" " t1 " cardGarbage] := by
  exact C5_window_boundary_inclusive.2.2 now0 now0 "s" "k" initState
    cardGarbage " t1 " rfl (by decide) (by decide)

/-- Claim C6: the sorted snapshot is pairwise descending under the
code-point string order on the stored ISO timestamps, it is a
permutation of the accepted sequence, the sort is stable (articles of
any fixed key keep their original relative order), and the concrete
tie-break instance [A, B, C] with instants [T, T, T−1] comes out
unchanged. -/
theorem C6_sorted_snapshot_descending_stable :
    (∀ l : List Article, List.Pairwise keyGe (sorted_snapshot l)) ∧
    (∀ l : List Article, List.Perm (sorted_snapshot l) l) ∧
    (∀ (l : List Article) (k : List Char),
        (sorted_snapshot l).filter (fun a => decide (sortKey a = k)) =
          l.filter (fun a => decide (sortKey a = k))) ∧
    sorted_snapshot [artA, artB, artC] = [artA, artB, artC] := by
  exact ⟨sorted_snapshot_pairwise, sorted_snapshot_perm,
    fun l k => filter_sorted_snapshot k l, by decide⟩

/-- Counterexample to C7 as stated: the parser is not total. The input
"25:30 05-01-2024" matches the absolute pattern (hour 25), and
`datetime(2024, 1, 5, 25, 30)` at src line 127 raises ValueError, so the
parser fails instead of returning an instant — and the per-candidate
handler then skips (excludes) the item rather than including it. -/
theorem C7_parser_total_counterexample :
    searchAbs (trimChars "25:30 05-01-2024".data) = some (25, 30, 5, 1, 2024) ∧
      parse_timeE now0 "25:30 05-01-2024" = none := by
  decide

/-- Claim C7 as amended: the time parser returns `now` without failing
whenever no recognized pattern matches — only inputs matching a pattern
with out-of-range or overflowing components can raise — so with a
nonnegative hours limit, and parsing happening no earlier than the `now`
the cutoff was formed from, a timestamp matching no recognized pattern
always passes the window test; a raising input instead has its candidate
skipped with no state change (excluded, not included). -/
theorem C7_parser_fail_open_amended :
    (∀ (now : Int) (ts : String), pattern_matched ts = false →
        parse_timeE now ts = some now) ∧
    (∀ (hours_limit nowStart nowParse pd : Int) (ts : String),
        0 ≤ hours_limit → nowStart ≤ nowParse → pattern_matched ts = false →
        parse_timeE nowParse ts = some pd →
        is_within_time_limit (nowStart - hours_limit * 60) pd = true) ∧
    (∀ (cutoff now : Int) (sn sk : String) (s : SectionState) (c : Card),
        parse_timeE now (time_text_of c) = none →
        processCardE cutoff now sn sk s c = (s, false)) := by
  refine ⟨parse_timeE_unmatched, ?_, ?_⟩
  · intro hours_limit nowStart nowParse pd ts hh hn hp hpd
    rw [parse_timeE_unmatched nowParse ts hp] at hpd
    injection hpd with hpd
    subst hpd
    simp only [is_within_time_limit, decide_eq_true_eq]
    nlinarith
  · intro cutoff now sn sk s c hnone
    cases ht : c.titleElem with
    | none => simp [processCardE, ht]
    | some t0 =>
      by_cases hd : strip t0 ∈ s.seen_titles
      · simp [processCardE, ht, hd]
      · simp [processCardE, ht, hd, hnone]

/-- Witness for C7's amended claim: "garbage text" parses to `now`
without raising and passes a 24-hour window opened one minute before
parse time, while the out-of-range absolute timestamp raises and its
card is skipped with the fresh state untouched. -/
theorem C7_parser_fail_open_amended_witness :
    parse_timeE (now0 + 1) "garbage text" = some (now0 + 1) ∧
      is_within_time_limit (now0 - 24 * 60) (now0 + 1) = true ∧
      processCardE now0 now0 "s" "k" initState cardBadTime =
        (initState, false) := by
  exact ⟨C7_parser_fail_open_amended.1 (now0 + 1) "garbage text" (by decide),
    C7_parser_fail_open_amended.2.1 24 now0 (now0 + 1) (now0 + 1) "garbage text"
      (by decide) (by decide) (by decide) (by decide),
    C7_parser_fail_open_amended.2.2 now0 now0 "s" "k" initState cardBadTime
      (by decide)⟩

/-- Claim C8: a candidate with no title is skipped entirely — no
article, no seen-title entry, no stale increment, no early return —
whatever its timestamp text. -/
theorem C8_missing_title_skipped :
    ∀ (cutoff now : Int) (sn sk : String) (s : SectionState) (c : Card),
      c.titleElem = none → processCard cutoff now sn sk s c = (s, false) :=
  processCard_none

/-- Witness for C8: the concrete titleless card leaves the fresh state
untouched. -/
theorem C8_missing_title_skipped_witness :
    processCard now0 now0 "s" "k" initState cardNoTitle = (initState, false) :=
  C8_missing_title_skipped now0 now0 "s" "k" initState cardNoTitle rfl

/-- Counterexample to C9 as stated: an extracted href that is already an
absolute URL is still prefixed with the site origin, so the accepted
article's url is the malformed concatenation, not the href unchanged. -/
theorem C9_absolute_href_counterexample :
    (processCard now0 now0 "s" "k" initState cardAbs).1.articles.map Article.url =
        ["https://www.faceiraq.orghttps://www.example.com/a"] ∧
      ¬ (processCard now0 now0 "s" "k" initState cardAbs).1.articles.map Article.url =
          ["https://www.example.com/a"] := by
  decide

/-- Claim C9 as amended: every accepted article's url is the site's base
origin concatenated with the extracted href unconditionally — also when
the href is already absolute, yielding a malformed URL in that case —
and the empty string when the listing entry lacks a link. -/
theorem C9_url_prefix_amended :
    ∀ (cutoff now : Int) (sn sk : String) (s : SectionState) (c : Card)
      (t0 : String), c.titleElem = some t0 →
      strip t0 ∉ s.seen_titles →
      is_within_time_limit cutoff (parse_time now (time_text_of c)) = true →
      (processCard cutoff now sn sk s c).1.articles.map Article.url =
        s.articles.map Article.url ++
          [match c.linkHref with
           | some href => "https://www.faceiraq.org" ++ href
           | none => ""] := by
  intro cutoff now sn sk s c t0 ht hd hw
  rw [processCard_accept cutoff now sn sk s c t0 ht hd hw]
  simp [acceptedArticle, urlOf]

/-- Witness for C9's amended claim: the card carrying an absolute href
is accepted with the unconditionally prefixed url. -/
theorem C9_url_prefix_amended_witness :
    (processCard now0 now0 "s" "k" initState cardAbs).1.articles.map Article.url =
      initState.articles.map Article.url ++
        [match cardAbs.linkHref with
         | some href => "https://www.faceiraq.org" ++ href
         | none => ""] := by
  exact C9_url_prefix_amended now0 now0 "s" "k" initState cardAbs "abs" rfl
    (by decide) (by decide)

/-- Claim C10: the seen-title set always equals the title set of the
accepted articles — it holds initially and is preserved by every
candidate step — and consequently a previously skipped out-of-window
entry (its title not among the accepted titles) increments the stale
counter again whenever it is re-examined. -/
theorem C10_seen_titles_invariant :
    seenInv initState ∧
    (∀ (cutoff now : Int) (sn sk : String) (s : SectionState) (c : Card),
        seenInv s → seenInv (processCard cutoff now sn sk s c).1) ∧
    (∀ (cutoff now : Int) (sn sk : String) (s : SectionState) (c : Card)
        (t0 : String), seenInv s → c.titleElem = some t0 →
        strip t0 ∉ s.articles.map Article.title →
        parse_time now (time_text_of c) < cutoff →
        (processCard cutoff now sn sk s c).1.stale = s.stale + 1) := by
  refine ⟨seenInv_initState, processCard_seenInv, ?_⟩
  intro cutoff now sn sk s c t0 hs ht hmem hlt
  have hd : strip t0 ∉ s.seen_titles := fun hin => hmem ((hs _).mp hin)
  have hw : is_within_time_limit cutoff (parse_time now (time_text_of c)) = false := by
    simp [is_within_time_limit, not_le.mpr hlt]
  rw [processCard_stale_step cutoff now sn sk s c t0 ht hd hw]

/-- Witness for C10: the three-hour-old card, not seen before, bumps the
stale counter of the fresh state from 0 to 1; a candidate step from the
fresh state preserves the invariant. -/
theorem C10_seen_titles_invariant_witness :
    (processCard now0 now0 "s" "k" initState cardOld).1.stale =
        initState.stale + 1 ∧
      seenInv (processCard now0 now0 "s" "k" initState cardGarbage).1 := by
  exact ⟨C10_seen_titles_invariant.2.2 now0 now0 "s" "k" initState cardOld
      "old" seenInv_initState rfl (by decide) (by decide),
    C10_seen_titles_invariant.2.1 now0 now0 "s" "k" initState cardGarbage
      seenInv_initState⟩

end Crawler
